import Mathlib

/-!
# Coordinator request routing (coordinator/server.go)

A shallow embedding of the coordinator server's request path: the two gateway
handlers (`externalHandler`, `acceptInternalRequest`), the router
(`handleRequest`) and provider discovery (`getProviders`).

Side effects are made explicit: every function threads a `World`, which holds
the state of the request tracker and a log of the observable effects (directory
reads, tracker calls, transmissions, responses) in the order they happen.
Library calls whose source is outside `coordinator/server.go` are fields of an
environment `Env`.
-/

namespace Coordinator

/-! ## Data model -/

/-- Go `error` value: its message, and whether `os.IsNotExist` holds of it. -/
structure GoError where
  msg : String
  notExist : Bool
deriving DecidableEq, Repr

/-- Go `errors.New`: a plain error, never a not-exist error. -/
def errorsNew (msg : String) : GoError := ⟨msg, false⟩

/-- Parsed `*url.URL`, kept as its text. -/
abbrev URL := String

/-- Modelled from the spec: the `acomm.Request` type declaration is not part of the
sources; section 3 gives a Request the fields RequestID, Task, Args,
ResponseHook, StreamURL and Timeout. The zero value is Go's `&acomm.Request{}`. -/
structure Request where
  ID : String
  Task : String
  Args : String
  ResponseHook : Option URL
  StreamURL : Option URL
  Timeout : Nat
deriving DecidableEq, Repr

/-- Go zero value `&acomm.Request{}`. -/
def Request.zero : Request := ⟨"", "", "", none, none, 0⟩

/-- Modelled from the spec: the `acomm.Response` type declaration is not part of the
sources; section 3 gives a Response the fields RequestID, Result, StreamURL and
Error. -/
structure Response where
  ID : String
  Result : Option String
  StreamURL : Option URL
  Error : Option GoError
deriving DecidableEq, Repr

/-- Modelled from the spec: `acomm.NewResponse` is not part of the sources. A
Response echoes the RequestID of the originating request and carries the given
result, stream URL and error; Error is mutually exclusive with Result, so asking
for both is refused. -/
def NewResponse (req : Request) (result : Option String) (streamURL : Option URL)
    (respErr : Option GoError) : Except GoError Response :=
  if result.isSome && respErr.isSome then
    .error (errorsNew "cannot set both result and err")
  else
    .ok ⟨req.ID, result, streamURL, respErr⟩

/-- Directory entry as seen through `os.FileInfo`: `Name()` and `Mode()`
(a 32-bit `os.FileMode`). -/
structure FileInfo where
  Name : String
  Mode : Nat
deriving DecidableEq, Repr

/-- Go `os.ModeSocket`: the eighth mode bit counted from the top of 32 bits,
`1 << (32 - 1 - 7)`. -/
def ModeSocket : Nat := 1 <<< (32 - 1 - 7)

/-- Observable effects, logged in the order they happen. `dispatch` is a ghost
event marking entry into `handleRequest`. -/
inductive Event where
  | dispatch (req : Request)
  | readDir (dir : String)
  | proxyUnix (req : Request)
  | send (target : String) (req : Request)
  | respond (resp : Option Response)
deriving DecidableEq, Repr

/-- Mutable state threaded through the server: the tracker and the effect log
(oldest event first). -/
structure World (τ : Type) where
  tracker : τ
  log : List Event

/-- Append one event to the log. -/
def World.emit {τ : Type} (w : World τ) (e : Event) : World τ :=
  { w with log := w.log ++ [e] }

/-- Incoming HTTP request: the outcome of `ioutil.ReadAll(r.Body)`. -/
structure HttpRequest where
  Body : Except GoError String

/-- Library calls and configuration used by the server, over a tracker state `τ`. -/
structure Env (τ : Type) where
  /-- Value of `config.SocketDir()`. -/
  socketDir : String
  /-- Go `filepath.Join` of two elements. -/
  join : String → String → String
  /-- Go `ioutil.ReadDir`. -/
  readDir : String → Except GoError (List FileInfo)
  /-- Go `url.ParseRequestURI`, with `none` for the nil URL of a failed parse. -/
  parseRequestURI : String → Option URL
  /-- Tracker call `s.proxy.ProxyUnix(req, 0)`: the rewritten request or an error, and
  the tracker state afterwards. -/
  proxyUnix : τ → Request → Except GoError Request × τ
  /-- Transmission `acomm.Send(addr, payload)`: `none` when the endpoint accepted. Whether
  an endpoint accepts is taken to be settled by the address and the payload for the
  time of one call. -/
  send : Option URL → Request → Option GoError
  /-- Validation `req.Validate()`. -/
  validate : Request → Option GoError
  /-- Go `json.Unmarshal(body, req)`: the request as left by decoding, and the error. -/
  jsonUnmarshal : String → Request → Request × Option GoError
  /-- Connection read `acomm.UnmarshalConnData(conn, req)` on the connection payload. -/
  unmarshalConnData : String → Request → Request × Option GoError

/-! ## Provider discovery -/

/-- Socket test of `getProviders`: `fi.Mode()&os.ModeSocket == os.ModeSocket`. -/
def isSocket (fi : FileInfo) : Bool :=
  fi.Mode &&& ModeSocket == ModeSocket

/-- The filter loop of `getProviders` over the directory listing. -/
def filterSockets {τ : Type} (env : Env τ) (taskSocketDir : String) :
    List FileInfo → List String → List String
  | [], providerSockets => providerSockets
  | fi :: files, providerSockets =>
    if isSocket fi then
      filterSockets env taskSocketDir files (providerSockets ++ [env.join taskSocketDir fi.Name])
    else
      filterSockets env taskSocketDir files providerSockets

/-- Source function `Server.getProviders`: the providers registered for a task. -/
def getProviders {τ : Type} (env : Env τ) (task : String) (w : World τ) :
    Except GoError (List String) × World τ :=
  if task = "" then
    (.error (errorsNew "request missing task"), w)
  else
    let taskSocketDir := env.join env.socketDir task
    let w := w.emit (.readDir taskSocketDir)
    match env.readDir taskSocketDir with
    | .error err =>
      if err.notExist then (.ok [], w)
      else (.error err, w)
    | .ok files => (.ok (filterSockets env taskSocketDir files []), w)

/-! ## Router -/

/-- One pass of the failover loop body of `handleRequest`: parse the socket address
and transmit. -/
def transmit {τ : Type} (env : Env τ) (proxyReq : Request) (providerSocket : String) :
    Option GoError :=
  env.send (env.parseRequestURI ("unix://" ++ providerSocket)) proxyReq

/-- The failover loop of `handleRequest`; `err` is the shared error variable. -/
def sendLoop {τ : Type} (env : Env τ) (proxyReq : Request) :
    List String → Option GoError → World τ → Option GoError × World τ
  | [], err, w => (err, w)
  | providerSocket :: rest, _, w =>
    let w := w.emit (.send ("unix://" ++ providerSocket) proxyReq)
    match transmit env proxyReq providerSocket with
    | none => (none, w)
    | some err => sendLoop env proxyReq rest (some err) w

/-- Source function `Server.handleRequest`: proxy a request and forward it to a
provider of its task. -/
def handleRequest {τ : Type} (env : Env τ) (req : Request) (w : World τ) :
    Option GoError × World τ :=
  let w := w.emit (.dispatch req)
  match getProviders env req.Task w with
  | (.error err, w) => (some err, w)
  | (.ok providerSockets, w) =>
    if providerSockets.length = 0 then
      (some (errorsNew "no providers available for task"), w)
    else
      let w := w.emit (.proxyUnix req)
      match env.proxyUnix w.tracker req with
      | (.error err, t) => (some err, { w with tracker := t })
      | (.ok proxyReq, t) => sendLoop env proxyReq providerSockets none { w with tracker := t }

/-! ## Gateway -/

/-- The deferred immediate response of `externalHandler`: the `NewResponse` error is
overwritten by that of `json.Marshal`, so whatever was built (possibly nil) is
written. -/
def externalRespond {τ : Type} (req : Request) (respErr : Option GoError) (w : World τ) :
    World τ :=
  match NewResponse req none none respErr with
  | .error _ => w.emit (.respond none)
  | .ok resp => w.emit (.respond (some resp))

/-- Source function `Server.externalHandler`: the http handler for external requests. -/
def externalHandler {τ : Type} (env : Env τ) (r : HttpRequest) (w : World τ) : World τ :=
  let req := Request.zero
  match r.Body with
  | .error err => externalRespond req (some err) w
  | .ok body =>
    match env.jsonUnmarshal body req with
    | (req, some err) => externalRespond req (some err) w
    | (req, none) =>
      match handleRequest env req w with
      | (respErr, w) => externalRespond req respErr w

/-- The deferred immediate response of `acceptInternalRequest`: nothing is sent when
`NewResponse` fails. -/
def internalRespond {τ : Type} (req : Request) (respErr : Option GoError) (w : World τ) :
    World τ :=
  match NewResponse req none none respErr with
  | .error _ => w
  | .ok resp => w.emit (.respond (some resp))

/-- Source function `Server.acceptInternalRequest`: one request per accepted
connection; `conn` is the payload carried by the connection. The deferred
`DoneConn` bookkeeping of the listener has no observable effect here and is left
out. -/
def acceptInternalRequest {τ : Type} (env : Env τ) (conn : String) (w : World τ) : World τ :=
  let req := Request.zero
  match env.unmarshalConnData conn req with
  | (req, some err) => internalRespond req (some err) w
  | (req, none) =>
    match env.validate req with
    | some err => internalRespond req (some err) w
    | none =>
      match handleRequest env req w with
      | (some err, w) => internalRespond req (some err) w
      | (none, w) => internalRespond req none w

/-- The responses written so far, oldest first (nil when there was nothing to
marshal). -/
def responses (log : List Event) : List (Option Response) :=
  log.filterMap fun e =>
    match e with
    | .respond resp => some resp
    | _ => none

/-- The gateway-level outcome in the words of the spec: the error of the first stage
that failed among deserialization, validation and dispatch, if any did. -/
def gatewayError (parseErr validateErr dispatchErr : Option GoError) : Option GoError :=
  match parseErr, validateErr, dispatchErr with
  | some e, _, _ => some e
  | none, some e, _ => some e
  | none, none, d => d

/-- Deserialization stage of `externalHandler`: reading the body, then
`json.Unmarshal`; the request as left by decoding and the error. -/
def decodeExternal {τ : Type} (env : Env τ) (r : HttpRequest) : Request × Option GoError :=
  match r.Body with
  | .error err => (Request.zero, some err)
  | .ok body => env.jsonUnmarshal body Request.zero

/-! ## Tracker, as far as the router relies on it -/

/-- Modelled from the spec: the tracker entry of section 3. -/
structure Entry where
  RequestID : String
  OriginalResponseHook : Option URL
  OriginalStreamURL : Option URL
  Deadline : Nat
deriving DecidableEq, Repr

/-- Modelled from the spec: the state of `acomm.Tracker`, whose source is not part of
the sources: its private inbound endpoint, the clock, the default timeout and
the live entries. -/
structure Tracker where
  endpoint : URL
  now : Nat
  defaultTimeout : Nat
  entries : List Entry
deriving DecidableEq, Repr

/-- Whether a live entry is keyed by the given RequestID. -/
def Tracker.isTracked (t : Tracker) (id : String) : Bool :=
  t.entries.any (fun e => e.RequestID == id)

/-- Modelled from the spec: the rewritten copy of a request produced by `Track`, whose
ResponseHook and StreamURL point at the tracker's private inbound endpoint. -/
def Tracker.rewrite (t : Tracker) (req : Request) : Request :=
  { req with ResponseHook := some t.endpoint, StreamURL := some t.endpoint }

/-- Modelled from the spec: `Track(req, timeout)` of section 4.2, standing for
`acomm.Tracker.ProxyUnix`, which is not part of the sources. It records a new
entry keyed by the RequestID with Deadline = now + timeout and produces a copy
of the request whose ResponseHook and StreamURL point at the tracker's private
inbound endpoint; it fails with TrackingConflict, changing nothing, when the
RequestID already has a live entry. -/
def Tracker.Track (t : Tracker) (req : Request) (timeout : Nat) :
    Except GoError Request × Tracker :=
  if t.isTracked req.ID then
    (.error (errorsNew "TrackingConflict"), t)
  else
    (.ok (t.rewrite req),
     { t with entries :=
        ⟨req.ID, req.ResponseHook, req.StreamURL, t.now + timeout⟩ :: t.entries })

/-- Entry that matches a request: keyed by its RequestID and holding its original
response destinations. -/
def Entry.matchesRequest (e : Entry) (req : Request) : Bool :=
  e.RequestID == req.ID && e.OriginalResponseHook == req.ResponseHook &&
    e.OriginalStreamURL == req.StreamURL

/-! ## Concrete environments used to evaluate the model -/

/-- Plain path join used in the examples: directory, separator, name. -/
def joinPath (dir name : String) : String := dir ++ "/" ++ name

/-- Example environment over the spec tracker: the listing of each directory and the
answer of each endpoint are given as tables. -/
def exampleEnv (listing : List (String × List FileInfo))
    (rejecting : List (String × GoError)) : Env Tracker where
  socketDir := "/run"
  join := joinPath
  readDir := fun dir =>
    match listing.lookup dir with
    | some files => .ok files
    | none => .error ⟨"no such file or directory", true⟩
  parseRequestURI := fun s => some s
  proxyUnix := fun t req => t.Track req t.defaultTimeout
  send := fun addr _ =>
    match addr with
    | none => some (errorsNew "missing addr")
    | some a => rejecting.lookup a
  validate := fun req => if req.Task = "" then some (errorsNew "missing task") else none
  jsonUnmarshal := fun body req =>
    if body = "" then (req, some (errorsNew "unexpected end of JSON input"))
    else if body = "{}" then ({ req with ID := "r1" }, none)
    else ({ req with ID := "r1", Task := body }, none)
  unmarshalConnData := fun body req =>
    if body = "" then (req, some (errorsNew "unexpected end of JSON input"))
    else if body = "{}" then ({ req with ID := "r1" }, none)
    else ({ req with ID := "r1", Task := body }, none)

/-- Empty tracker listening on the response socket. -/
def emptyTracker : Tracker := ⟨"unix:///run/response/coordinator.sock", 0, 30, []⟩

/-- Initial world: empty tracker, empty log. -/
def world0 : World Tracker := ⟨emptyTracker, []⟩

/-- Socket entry with permission bits 0755. -/
def socketFile (name : String) : FileInfo := ⟨name, ModeSocket ||| 0x1ed⟩

/-- Regular file with permission bits 0644. -/
def regularFile (name : String) : FileInfo := ⟨name, 0x1a4⟩

/-- Example request for task foo, with the caller's own response hook. -/
def reqFoo : Request := ⟨"r1", "foo", "", some "http://caller/hook", none, 0⟩

/-- Request r1 as decoded from a payload that names no task. -/
def reqNoTask : Request := { Request.zero with ID := "r1" }

/-- The request `reqFoo` as rewritten by the example tracker. -/
def reqFooProxied : Request :=
  { reqFoo with ResponseHook := some emptyTracker.endpoint,
                StreamURL := some emptyTracker.endpoint }

/-- The example tracker once `reqFoo` is tracked. -/
def trackerFoo : Tracker :=
  { emptyTracker with entries := [⟨"r1", some "http://caller/hook", none, 30⟩] }

/-- Task foo with provider sockets a, b, c (and a stray regular file), where a and b
refuse transmission and c accepts. -/
def envFailover : Env Tracker :=
  exampleEnv
    [("/run/foo", [socketFile "a", socketFile "b", regularFile "notes", socketFile "c"])]
    [("unix:///run/foo/a", errorsNew "refused by a"),
     ("unix:///run/foo/b", errorsNew "refused by b")]

/-- Task foo with provider sockets a and b, both refusing transmission. -/
def envAllReject : Env Tracker :=
  exampleEnv [("/run/foo", [socketFile "a", socketFile "b"])]
    [("unix:///run/foo/a", errorsNew "refused by a"),
     ("unix:///run/foo/b", errorsNew "refused by b")]

/-- Task foo whose directory exists but holds no socket. -/
def envNoProviders : Env Tracker :=
  exampleEnv [("/run/foo", [regularFile "notes"])] []

/-- Task foo with the single provider socket a, which refuses transmission. -/
def envOneReject : Env Tracker :=
  exampleEnv [("/run/foo", [socketFile "a"])] [("unix:///run/foo/a", errorsNew "refused by a")]

/-- Every directory read fails with a permission error. -/
def envDenied : Env Tracker :=
  { exampleEnv [] [] with readDir := fun _ => .error ⟨"permission denied", false⟩ }

/-- Task foo with sockets a and b and the regular file c; every endpoint accepts. -/
def envListing : Env Tracker :=
  exampleEnv [("/run/foo", [socketFile "a", socketFile "b", regularFile "c"])] []

/-! ## What reaches the tracking step -/

/-- The requests handed to the tracking step so far, oldest first. -/
def trackedRequests (log : List Event) : List Request :=
  log.filterMap fun e =>
    match e with
    | .proxyUnix req => some req
    | _ => none

/-- Whether `handleRequest` gets as far as the tracking step: discovery succeeded with
at least one candidate. -/
def reachesTracking {τ : Type} (env : Env τ) (req : Request) (w : World τ) : Bool :=
  match (getProviders env req.Task w).1 with
  | .ok providerSockets => !providerSockets.isEmpty
  | .error _ => false

/-- Request for task foo as decoded from the payload `{"task": "foo"}`: no RequestID. -/
def reqNoID : Request := { Request.zero with Task := "foo" }

/-- Environment of `envListing` with Go's `json.Unmarshal` on a payload that only names
the task: the fields absent from the payload keep their zero value. -/
def envNoID : Env Tracker :=
  { envListing with
    jsonUnmarshal := fun body req =>
      if body = "" then (req, some (errorsNew "unexpected end of JSON input"))
      else ({ req with Task := body }, none) }

/-! ## Lifecycle (Start) -/

/-- Which pieces of the server are up: the tracker (`s.proxy`), the internal listener,
the goroutine running `internalHandler`, and the goroutine running
`externalListenAndServe`. -/
structure Pieces where
  proxy : Bool
  internal : Bool
  internalHandler : Bool
  external : Bool
deriving DecidableEq, Repr

/-- Lifecycle calls on the pieces: the start calls and goroutine launches of
`Server.Start`, and the stop calls `s.external.Stop(0)`, `s.internal.Stop(0)` and
`s.proxy.Stop()` that `Server.Stop` is there to make. -/
inductive LifecycleOp where
  | proxyStart
  | internalStart
  | goInternalHandler
  | goExternalListenAndServe
  | externalStop
  | internalStop
  | proxyStop
deriving DecidableEq, Repr

/-- Lifecycle state: what is up, and the calls made so far (oldest first). -/
structure Lifecycle where
  up : Pieces
  calls : List LifecycleOp
deriving DecidableEq, Repr

/-- Record one lifecycle call. -/
def Lifecycle.call (s : Lifecycle) (op : LifecycleOp) : Lifecycle :=
  { s with calls := s.calls ++ [op] }

/-- Source function `Server.Start`. The answers of `s.proxy.Start()` and
`s.internal.Start()` are given (`none` for success); a piece whose start fails
is not up. The external listener is only launched: it binds and serves in its
own goroutine, after `Start` has returned. -/
def Start (proxyStart internalStart : Option GoError) (s : Lifecycle) :
    Option GoError × Lifecycle :=
  let s := s.call .proxyStart
  match proxyStart with
  | some err => (some err, s)
  | none =>
    let s := { s with up := { s.up with proxy := true } }
    let s := s.call .internalStart
    match internalStart with
    | some err => (some err, s)
    | none =>
      let s := { s with up := { s.up with internal := true } }
      let s := { s.call .goInternalHandler with up := { s.up with internalHandler := true } }
      let s := { s.call .goExternalListenAndServe with up := { s.up with external := true } }
      (none, s)

/-- Nothing is up and nothing was called. -/
def lifecycle0 : Lifecycle := ⟨⟨false, false, false, false⟩, []⟩

/-- Whether no piece of the server is up. -/
def Pieces.allDown (p : Pieces) : Bool :=
  !p.proxy && !p.internal && !p.internalHandler && !p.external

/-! ## Tracker: resolution and timeout -/

/-- One Response forwarded to a caller's original response hook. -/
structure Delivery where
  hook : Option URL
  resp : Response
deriving DecidableEq, Repr

/-- Modelled from the spec: `Resolve(resp)` of section 4.2, the tracker's handling of a
Response arriving at its private inbound endpoint; the tracker's source is not
part of the sources. The entry is looked up by the Response's RequestID; if
found, the Response is forwarded to the entry's original response hook (its
StreamURL rewritten back to the original one if the provider streamed) and the
entry is removed; if not found nothing happens. -/
def Tracker.Resolve (t : Tracker) (resp : Response) : Tracker × List Delivery :=
  match t.entries.find? (fun e => e.RequestID == resp.ID) with
  | none => (t, [])
  | some e =>
    let forwarded : Response :=
      if resp.StreamURL.isSome then { resp with StreamURL := e.OriginalStreamURL } else resp
    ({ t with entries := t.entries.filter (fun x => !(x.RequestID == resp.ID)) },
     [⟨e.OriginalResponseHook, forwarded⟩])

/-- Modelled from the spec: the Response synthesized by the timeout sweep, carrying a
Timeout error and addressed with the entry's own RequestID. -/
def timeoutResponse (e : Entry) : Response :=
  ⟨e.RequestID, none, none, some (errorsNew "Timeout")⟩

/-- Deliver the synthesized timeout of each given entry exactly as `Resolve` would. -/
def Tracker.expire (t : Tracker) : List Entry → Tracker × List Delivery
  | [] => (t, [])
  | e :: rest =>
    let (t1, d1) := t.Resolve (timeoutResponse e)
    let (t2, d2) := Tracker.expire t1 rest
    (t2, d1 ++ d2)

/-- Modelled from the spec: the timeout sweep of section 4.2: find the entries whose
Deadline has passed, deliver a synthesized Timeout for each as `Resolve` would,
and remove them. -/
def Tracker.sweep (t : Tracker) : Tracker × List Delivery :=
  t.expire (t.entries.filter (fun e => decide (e.Deadline < t.now)))

/-- Modelled from the spec: `Stop()` of section 4.2: still-pending entries are dropped
without synthesizing a final response. -/
def Tracker.Stop (t : Tracker) : Tracker :=
  { t with entries := [] }

/-- What can happen to a tracker; each operation is atomic with respect to the others
(section 5 of the spec). `advance` lets time pass. -/
inductive TrackerOp where
  | track (req : Request) (timeout : Nat)
  | resolve (resp : Response)
  | sweep
  | advance (dt : Nat)
  | stop
deriving DecidableEq, Repr

/-- One tracker operation: the state afterwards and the deliveries it made. -/
def Tracker.step (t : Tracker) : TrackerOp → Tracker × List Delivery
  | .track req timeout => ((t.Track req timeout).2, [])
  | .resolve resp => t.Resolve resp
  | .sweep => t.sweep
  | .advance dt => ({ t with now := t.now + dt }, [])
  | .stop => (t.Stop, [])

/-- A sequence of tracker operations: the final state and all deliveries, in order. -/
def Tracker.run (t : Tracker) : List TrackerOp → Tracker × List Delivery
  | [] => (t, [])
  | op :: ops =>
    let (t1, d1) := t.step op
    let (t2, d2) := Tracker.run t1 ops
    (t2, d1 ++ d2)

/-- The deliveries that answer a given RequestID. -/
def deliveriesFor (id : String) (ds : List Delivery) : List Delivery :=
  ds.filter (fun d => d.resp.ID == id)

/-- Number of live entries keyed by a RequestID. -/
def Tracker.liveCount (t : Tracker) (id : String) : Nat :=
  t.entries.countP (fun e => e.RequestID == id)

end Coordinator

/-!
# Mock cluster configuration provider (providers/clusterconf/mock.go)

The in-memory tables of `MockClusterConf` and the task handlers for bundles and
for the nodes history. A Go map is an association list: lookup finds the first
pair with the key, assignment replaces it or appends, and `range` visits the
pairs in list order, which stands for whatever order the Go runtime picks.
-/

namespace Clusterconf

open Coordinator (GoError errorsNew Request)

/-- Go map lookup `m[k]`, with `none` for an absent key. -/
def mapGet {K V : Type} [BEq K] (m : List (K × V)) (k : K) : Option V :=
  m.lookup k

/-- Go map assignment `m[k] = v`. -/
def mapSet {K V : Type} [BEq K] : List (K × V) → K → V → List (K × V)
  | [], k, v => [(k, v)]
  | (k2, v2) :: rest, k, v =>
    if k == k2 then (k, v) :: rest else (k2, v2) :: mapSet rest k v

/-- Go `delete(m, k)`. -/
def mapDelete {K V : Type} [BEq K] (m : List (K × V)) (k : K) : List (K × V) :=
  m.filter (fun kv => !(k == kv.1))

/-- Range of a Go `uint64`. -/
def uint64Size : Nat := 2 ^ 64

/-- Bundle as far as `mock.go` looks into it: `ID` (the key type of the `Bundles` map,
`uint64`) and `ModIndex`, a Go unsigned 64-bit counter; the type declaration is
outside `mock.go`, and the remaining fields travel along as `Config`. -/
structure Bundle where
  ID : Nat
  ModIndex : Nat
  Config : String
deriving DecidableEq, Repr

/-- Arguments and result `BundlePayload`: a bundle pointer, possibly nil. -/
structure BundlePayload where
  Bundle : Option Bundle
deriving DecidableEq, Repr

/-- Arguments `BundleIDArgs`. -/
structure BundleIDArgs where
  ID : Nat
deriving DecidableEq, Repr

/-- Node as far as `mock.go` looks into it: `ID` and `Heartbeat` (a `time.Time`, kept
as an instant); the remaining fields travel along as `Info`. -/
structure Node where
  ID : String
  Heartbeat : Nat
  Info : String
deriving DecidableEq, Repr

/-- Go type `NodeHistory`: `map[time.Time]*Node`. -/
abbrev NodeHistory := List (Nat × Node)

/-- Go type `NodesHistory`: node id to `NodeHistory`. -/
abbrev NodesHistory := List (String × NodeHistory)

/-- Arguments `NodeHistoryArgs`: the node ids and the heartbeat bounds to filter by;
the zero time is 0. -/
structure NodeHistoryArgs where
  IDs : List String
  Before : Nat
  After : Nat
deriving DecidableEq, Repr

/-- Go zero value of `NodeHistoryArgs`. -/
def NodeHistoryArgs.zero : NodeHistoryArgs := ⟨[], 0, 0⟩

/-- The tables of `MockClusterData` used by the handlers below (the tables of
services, datasets, nodes and defaults are not touched by them). -/
structure MockClusterData where
  Bundles : List (Nat × Bundle)
  History : NodesHistory
deriving DecidableEq, Repr

/-- Calls made by the handlers into code outside `mock.go`. -/
structure MockEnv where
  /-- Decoding `req.UnmarshalArgs(&args)` into a `BundleIDArgs`. -/
  unmarshalBundleIDArgs : Request → Except GoError BundleIDArgs
  /-- Decoding `req.UnmarshalArgs(&args)` into a `BundlePayload`. -/
  unmarshalBundlePayload : Request → Except GoError BundlePayload
  /-- The call `req.UnmarshalArgs(args)` of `GetNodesHistory`, which hands `args` over by
  value: only its error comes back. -/
  unmarshalNodeHistoryArgs : Request → Option GoError
  /-- The filter built by `nodeFilterID(ids...)`. -/
  nodeFilterID : List String → Node → Bool
  /-- The filter built by `nodeFilterHeartbeat(before, after)`. -/
  nodeFilterHeartbeat : Nat → Nat → Node → Bool
  /-- The value of `rand.Int63()`. -/
  randInt63 : Nat

/-! ## Bundles -/

/-- Source function `MockClusterConf.GetBundle`. -/
def GetBundle (env : MockEnv) (c : MockClusterData) (req : Request) :
    Except GoError BundlePayload :=
  match env.unmarshalBundleIDArgs req with
  | .error err => .error err
  | .ok args =>
    if args.ID = 0 then
      .error (errorsNew "missing arg: id")
    else
      match mapGet c.Bundles args.ID with
      | none => .error (errorsNew "bundle config not found")
      | some bundle => .ok ⟨some bundle⟩

/-- Source function `MockClusterConf.UpdateBundle`: the result and the tables
afterwards. -/
def UpdateBundle (env : MockEnv) (c : MockClusterData) (req : Request) :
    Except GoError BundlePayload × MockClusterData :=
  match env.unmarshalBundlePayload req with
  | .error err => (.error err, c)
  | .ok args =>
    match args.Bundle with
    | none => (.error (errorsNew "missing arg: bundle"), c)
    | some bundle =>
      let bundle :=
        if bundle.ID = 0 then { bundle with ID := env.randInt63 % uint64Size } else bundle
      let bundle := { bundle with ModIndex := (bundle.ModIndex + 1) % uint64Size }
      (.ok ⟨some bundle⟩, { c with Bundles := mapSet c.Bundles bundle.ID bundle })

/-- Source function `MockClusterConf.DeleteBundle`: the error and the tables
afterwards. -/
def DeleteBundle (env : MockEnv) (c : MockClusterData) (req : Request) :
    Option GoError × MockClusterData :=
  match env.unmarshalBundleIDArgs req with
  | .error err => (some err, c)
  | .ok args =>
    if args.ID = 0 then
      (some (errorsNew "missing arg: id"), c)
    else
      (none, { c with Bundles := mapDelete c.Bundles args.ID })

/-! ## Nodes history -/

/-- The innermost loop of `GetNodesHistory`, over the filters: its `continue` moves on
to the next filter, and the loop ends having changed nothing. -/
def filterLoop : List (Node → Bool) → Node → NodesHistory → NodesHistory
  | [], _, history => history
  | fn :: filters, node, history =>
    if !fn node then filterLoop filters node history
    else filterLoop filters node history

/-- The loop of `GetNodesHistory` over the nodes of one saved node history. -/
def nodeLoop (filters : List (Node → Bool)) : NodeHistory → NodesHistory → NodesHistory
  | [], history => history
  | (_, node) :: savedNodeHistory, history =>
    let history := filterLoop filters node history
    let history :=
      match mapGet history node.ID with
      | none => mapSet history node.ID (mapSet [] node.Heartbeat node)
      | some nodeHistory => mapSet history node.ID (mapSet nodeHistory node.Heartbeat node)
    nodeLoop filters savedNodeHistory history

/-- The outer loop of `GetNodesHistory` over the saved histories. -/
def historyLoop (filters : List (Node → Bool)) : NodesHistory → NodesHistory → NodesHistory
  | [], history => history
  | (_, savedNodeHistory) :: saved, history =>
    historyLoop filters saved (nodeLoop filters savedNodeHistory history)

/-- Source function `MockClusterConf.GetNodesHistory`. The variable `args` is handed to
`UnmarshalArgs` by value and so keeps its zero value. -/
def GetNodesHistory (env : MockEnv) (c : MockClusterData) (req : Request) :
    Except GoError NodesHistory :=
  let args := NodeHistoryArgs.zero
  match env.unmarshalNodeHistoryArgs req with
  | some err => .error err
  | none =>
    let filters := [env.nodeFilterID args.IDs, env.nodeFilterHeartbeat args.Before args.After]
    .ok (historyLoop filters c.History [])

/-- Whether a history holds the node under its ID and heartbeat. -/
def holdsNode (history : NodesHistory) (node : Node) : Bool :=
  match mapGet history node.ID with
  | none => false
  | some nodeHistory => mapGet nodeHistory node.Heartbeat == some node

/-! ## Concrete tables used to evaluate the model -/

/-- Example environment: args decode to the given values; an id filter accepts the
listed ids (all ids when none is listed), a heartbeat filter accepts the
instants strictly inside the bounds that are set. -/
def mockEnv (bundle : Option Bundle) (id : Nat) (historyArgsErr : Option GoError) : MockEnv where
  unmarshalBundleIDArgs := fun _ => .ok ⟨id⟩
  unmarshalBundlePayload := fun _ => .ok ⟨bundle⟩
  unmarshalNodeHistoryArgs := fun _ => historyArgsErr
  nodeFilterID := fun ids node => ids.isEmpty || ids.contains node.ID
  nodeFilterHeartbeat := fun before after node =>
    (before == 0 || decide (node.Heartbeat < before)) &&
      (after == 0 || decide (after < node.Heartbeat))
  randInt63 := 4611686018427387904

/-- Node n1 with a heartbeat at instant 5. -/
def nodeN1 : Node := ⟨"n1", 5, "rack 1"⟩

/-- Node n2 with a heartbeat at instant 7. -/
def nodeN2 : Node := ⟨"n2", 7, "rack 2"⟩

/-- Tables holding one heartbeat of n1 and one of n2, and bundle 9. -/
def dataN1N2 : MockClusterData :=
  ⟨[(9, ⟨9, 3, "web"⟩)], [("n1", [(5, nodeN1)]), ("n2", [(7, nodeN2)])]⟩

/-- Request for the nodes history restricted to node n2. -/
def reqOnlyN2 : Request :=
  ⟨"h1", "get-nodes-history", "\x7b\"ids\":[\"n2\"]\x7d", some "unix:///run/caller.sock", none, 0⟩

/-- Request of a bundle task; its args are decoded by the environment. -/
def reqBundle : Request :=
  ⟨"b1", "update-bundle", "", some "unix:///run/caller.sock", none, 0⟩

/-- Bundle 7 submitted with ModIndex 4. -/
def bundle7 : Bundle := ⟨7, 4, "db"⟩

/-- Bundle 7 submitted with the largest ModIndex a `uint64` holds. -/
def bundle7Max : Bundle := ⟨7, 18446744073709551615, "db"⟩

end Clusterconf

namespace Coordinator

/-! ## Auxiliary facts about discovery and the failover loop -/

/-- The event logged for one transmission attempt. -/
def sendEvent (proxyReq : Request) (providerSocket : String) : Event :=
  .send ("unix://" ++ providerSocket) proxyReq

/-- The directory `getProviders` lists for a task. -/
def taskDir {τ : Type} (env : Env τ) (task : String) : String :=
  env.join env.socketDir task

theorem getProviders_fst_indep {τ : Type} (env : Env τ) (task : String) (w w2 : World τ) :
    (getProviders env task w).1 = (getProviders env task w2).1 := by
  unfold getProviders
  by_cases ht : task = ""
  · simp [ht]
  · simp only [ht, if_false]
    cases env.readDir (env.join env.socketDir task) with
    | error err => by_cases hn : err.notExist = true <;> simp [hn]
    | ok files => rfl

theorem getProviders_ok_task_ne {τ : Type} (env : Env τ) (task : String) (w : World τ)
    (cs : List String) (h : (getProviders env task w).1 = .ok cs) : task ≠ "" := by
  intro ht
  simp [getProviders, ht] at h

theorem getProviders_snd {τ : Type} (env : Env τ) (task : String) (w : World τ)
    (ht : task ≠ "") :
    (getProviders env task w).2 = w.emit (.readDir (taskDir env task)) := by
  unfold getProviders taskDir
  simp only [ht, if_false]
  cases env.readDir (env.join env.socketDir task) with
  | error err => by_cases hn : err.notExist = true <;> simp [hn]
  | ok files => rfl

theorem getProviders_empty_task {τ : Type} (env : Env τ) (w : World τ) :
    getProviders env "" w = (.error (errorsNew "request missing task"), w) := by
  simp [getProviders]

theorem getProviders_ok_eq {τ : Type} (env : Env τ) (task : String) (w w2 : World τ)
    (cs : List String) (h : (getProviders env task w).1 = .ok cs) :
    getProviders env task w2 = (.ok cs, w2.emit (.readDir (taskDir env task))) := by
  have ht := getProviders_ok_task_ne env task w cs h
  have h1 := getProviders_fst_indep env task w2 w
  have h2 := getProviders_snd env task w2 ht
  rw [h] at h1
  exact Prod.ext h1 h2

theorem sendLoop_first_accept {τ : Type} (env : Env τ) (proxyReq : Request)
    (pre post : List String) (c : String) (err : Option GoError) (w : World τ)
    (hrej : ∀ p ∈ pre, transmit env proxyReq p ≠ none)
    (hacc : transmit env proxyReq c = none) :
    sendLoop env proxyReq (pre ++ c :: post) err w =
      (none, ⟨w.tracker, w.log ++ (pre ++ [c]).map (sendEvent proxyReq)⟩) := by
  induction pre generalizing err w with
  | nil => simp [sendLoop, hacc, World.emit, sendEvent]
  | cons p pre ih =>
    have hp : transmit env proxyReq p ≠ none := hrej p (List.mem_cons_self _ _)
    obtain ⟨e, he⟩ := Option.ne_none_iff_exists'.mp hp
    have hrest : ∀ q ∈ pre, transmit env proxyReq q ≠ none :=
      fun q hq => hrej q (List.mem_cons_of_mem _ hq)
    rw [List.cons_append, sendLoop]
    simp only [he]
    rw [ih (some e) _ hrest]
    simp [World.emit, sendEvent]

theorem sendLoop_all_reject {τ : Type} (env : Env τ) (proxyReq : Request)
    (cs : List String) (hne : cs ≠ []) (err : Option GoError) (w : World τ)
    (hrej : ∀ p ∈ cs, transmit env proxyReq p ≠ none) :
    sendLoop env proxyReq cs err w =
      (transmit env proxyReq (cs.getLast hne),
       ⟨w.tracker, w.log ++ cs.map (sendEvent proxyReq)⟩) := by
  induction cs generalizing err w with
  | nil => exact absurd rfl hne
  | cons p rest ih =>
    have hp : transmit env proxyReq p ≠ none := hrej p (List.mem_cons_self _ _)
    obtain ⟨e, he⟩ := Option.ne_none_iff_exists'.mp hp
    cases rest with
    | nil => simp [sendLoop, he, World.emit, sendEvent]
    | cons q rest2 =>
      have hrest : ∀ x ∈ q :: rest2, transmit env proxyReq x ≠ none :=
        fun x hx => hrej x (List.mem_cons_of_mem _ hx)
      rw [sendLoop]
      simp only [he]
      rw [ih (List.cons_ne_nil _ _) (some e) _ hrest]
      simp [World.emit, sendEvent]

/-- What `handleRequest` does once discovery has returned a non-empty candidate list. -/
theorem handleRequest_of_candidates {τ : Type} (env : Env τ) (req : Request) (w : World τ)
    (cs : List String) (hne : cs ≠ [])
    (hdisc : (getProviders env req.Task w).1 = .ok cs) :
    handleRequest env req w =
      match env.proxyUnix w.tracker req with
      | (.error err, t) =>
        (some err, ⟨t, w.log ++ [.dispatch req, .readDir (taskDir env req.Task), .proxyUnix req]⟩)
      | (.ok proxyReq, t) =>
        sendLoop env proxyReq cs none
          ⟨t, w.log ++ [.dispatch req, .readDir (taskDir env req.Task), .proxyUnix req]⟩ := by
  have hlen : cs.length ≠ 0 := by
    intro h
    exact hne (List.length_eq_zero.mp h)
  unfold handleRequest
  simp only [getProviders_ok_eq env req.Task w (w.emit (.dispatch req)) cs hdisc, hlen,
    if_false]
  simp only [World.emit, List.append_assoc, List.singleton_append]
  rcases hp : env.proxyUnix w.tracker req with ⟨r, t⟩
  cases r <;> simp

theorem sendLoop_fst_none_iff {τ : Type} (env : Env τ) (proxyReq : Request)
    (cs : List String) (err : Option GoError) (w : World τ) :
    (sendLoop env proxyReq cs err w).1 = none ↔
      (∃ c ∈ cs, transmit env proxyReq c = none) ∨ (cs = [] ∧ err = none) := by
  induction cs generalizing err w with
  | nil => simp [sendLoop]
  | cons p rest ih =>
    rw [sendLoop]
    cases hp : transmit env proxyReq p with
    | none => simp [hp]
    | some e =>
      simp only [ih, List.mem_cons, exists_eq_or_imp, hp]
      simp

theorem sendLoop_tracker {τ : Type} (env : Env τ) (proxyReq : Request)
    (cs : List String) (err : Option GoError) (w : World τ) :
    (sendLoop env proxyReq cs err w).2.tracker = w.tracker := by
  induction cs generalizing err w with
  | nil => rfl
  | cons p rest ih =>
    rw [sendLoop]
    cases hp : transmit env proxyReq p with
    | none => rfl
    | some e => simp only [ih, World.emit]

/-! ## Router: ordered failover, no providers, total failure, tracking -/

/-- Claim C1. Once discovery has returned a non-empty candidate list and tracking
has succeeded, the candidates are tried in discovery order up to and including
the first one that accepts transmission: the effects of `handleRequest` are the
discovery read, the tracker call and one transmission of the rewritten request
to each candidate of that initial segment, in order; no later candidate is
tried, the tracker is left as the tracking step left it, and no error is
returned. -/
theorem handleRequest_stops_at_first_acceptor {τ : Type} (env : Env τ) (req proxyReq : Request)
    (w : World τ) (t : τ) (pre post : List String) (c : String)
    (hdisc : (getProviders env req.Task w).1 = .ok (pre ++ c :: post))
    (htrack : env.proxyUnix w.tracker req = (.ok proxyReq, t))
    (hrej : ∀ p ∈ pre, transmit env proxyReq p ≠ none)
    (hacc : transmit env proxyReq c = none) :
    handleRequest env req w =
      (none,
       ⟨t, w.log ++ [.dispatch req, .readDir (taskDir env req.Task), .proxyUnix req]
            ++ (pre ++ [c]).map (sendEvent proxyReq)⟩) := by
  rw [handleRequest_of_candidates env req w (pre ++ c :: post) (by simp) hdisc, htrack]
  simp only
  rw [sendLoop_first_accept env proxyReq pre post c none _ hrej hacc]

/-- Claim C1 at the example of the spec: candidates a, b, c where a and b refuse and c
accepts give exactly three attempts a, b, c and success. -/
theorem handleRequest_stops_at_first_acceptor_witness :
    handleRequest envFailover reqFoo world0 =
      (none,
       ⟨trackerFoo,
        [.dispatch reqFoo, .readDir "/run/foo", .proxyUnix reqFoo,
         .send "unix:///run/foo/a" reqFooProxied,
         .send "unix:///run/foo/b" reqFooProxied,
         .send "unix:///run/foo/c" reqFooProxied]⟩) :=
  handleRequest_stops_at_first_acceptor envFailover reqFoo reqFooProxied world0 trackerFoo
    ["/run/foo/a", "/run/foo/b"] [] "/run/foo/c" rfl rfl (by decide) (by decide)

/-- Claim C2. When discovery returns zero endpoints, `handleRequest` fails with the
no-providers error; its only effect is the discovery read: the tracker is not
called, its state is unchanged and nothing is transmitted. (Discovery can only
return a list when the task is non-empty.) -/
theorem handleRequest_no_providers {τ : Type} (env : Env τ) (req : Request) (w : World τ)
    (hdisc : (getProviders env req.Task w).1 = .ok []) :
    handleRequest env req w =
      (some (errorsNew "no providers available for task"),
       ⟨w.tracker, w.log ++ [.dispatch req, .readDir (taskDir env req.Task)]⟩) := by
  unfold handleRequest
  simp only [getProviders_ok_eq env req.Task w (w.emit (.dispatch req)) [] hdisc]
  simp [World.emit]

/-- Claim C2 on a task directory without sockets. -/
theorem handleRequest_no_providers_witness :
    handleRequest envNoProviders reqFoo world0 =
      (some (errorsNew "no providers available for task"),
       ⟨emptyTracker, [.dispatch reqFoo, .readDir "/run/foo"]⟩) :=
  handleRequest_no_providers envNoProviders reqFoo world0 rfl

/-- Claim C3. When every candidate of a non-empty list refuses transmission, each
candidate is tried exactly once in discovery order and `handleRequest` returns
the transmission error of the last candidate. -/
theorem handleRequest_all_reject {τ : Type} (env : Env τ) (req proxyReq : Request)
    (w : World τ) (t : τ) (cs : List String) (hne : cs ≠ [])
    (hdisc : (getProviders env req.Task w).1 = .ok cs)
    (htrack : env.proxyUnix w.tracker req = (.ok proxyReq, t))
    (hrej : ∀ p ∈ cs, transmit env proxyReq p ≠ none) :
    handleRequest env req w =
      (transmit env proxyReq (cs.getLast hne),
       ⟨t, w.log ++ [.dispatch req, .readDir (taskDir env req.Task), .proxyUnix req]
            ++ cs.map (sendEvent proxyReq)⟩) ∧
    transmit env proxyReq (cs.getLast hne) ≠ none := by
  refine ⟨?_, hrej _ (List.getLast_mem hne)⟩
  rw [handleRequest_of_candidates env req w cs hne hdisc, htrack]
  simp only
  rw [sendLoop_all_reject env proxyReq cs hne none _ hrej]

/-- Claim C3 at the example of the spec: with candidates a, b both refusing, the
error of b is returned, not that of a. -/
theorem handleRequest_all_reject_witness :
    handleRequest envAllReject reqFoo world0 =
      (some (errorsNew "refused by b"),
       ⟨trackerFoo,
        [.dispatch reqFoo, .readDir "/run/foo", .proxyUnix reqFoo,
         .send "unix:///run/foo/a" reqFooProxied,
         .send "unix:///run/foo/b" reqFooProxied]⟩) :=
  (handleRequest_all_reject envAllReject reqFoo reqFooProxied world0 trackerFoo
    ["/run/foo/a", "/run/foo/b"] (by decide) rfl rfl (by decide)).1

/-- Claim C4, the part that fails: a valid request with one discovered endpoint and
an unused RequestID still gets an error from `handleRequest` when that endpoint
refuses transmission; and a valid request with three discovered endpoints, one
of them accepting, gets the tracking error when its RequestID is already live. -/
theorem handleRequest_error_despite_endpoint :
    reqFoo.Task ≠ "" ∧
    ((getProviders envOneReject reqFoo.Task world0).1 = .ok ["/run/foo/a"] ∧
     world0.tracker.isTracked reqFoo.ID = false ∧
     (handleRequest envOneReject reqFoo world0).1 = some (errorsNew "refused by a")) ∧
    ((getProviders envFailover reqFoo.Task ⟨trackerFoo, []⟩).1 =
        .ok ["/run/foo/a", "/run/foo/b", "/run/foo/c"] ∧
     (handleRequest envFailover reqFoo ⟨trackerFoo, []⟩).1 =
        some (errorsNew "TrackingConflict")) :=
  ⟨by decide, ⟨rfl, rfl, rfl⟩, ⟨rfl, rfl⟩⟩

/-- Claim C4, amended. Over the tracker of the spec: for a request with at least one
discovered endpoint whose RequestID has no live entry, an entry matching the
request exists in the tracker right after `handleRequest`, whatever the
transmissions did; and `handleRequest` returns no error exactly when some
candidate accepts transmission of the rewritten request. -/
theorem handleRequest_tracks_request (env : Env Tracker) (req : Request) (w : World Tracker)
    (cs : List String) (hne : cs ≠ [])
    (hproxy : ∀ t r, env.proxyUnix t r = t.Track r t.defaultTimeout)
    (hdisc : (getProviders env req.Task w).1 = .ok cs)
    (hfree : w.tracker.isTracked req.ID = false) :
    (∃ e ∈ (handleRequest env req w).2.tracker.entries, e.matchesRequest req = true) ∧
    (handleRequest env req w).2.tracker.isTracked req.ID = true ∧
    ((handleRequest env req w).1 = none ↔
      ∃ c ∈ cs, transmit env (w.tracker.rewrite req) c = none) := by
  have htrack : env.proxyUnix w.tracker req =
      (.ok (w.tracker.rewrite req),
       { w.tracker with entries :=
          ⟨req.ID, req.ResponseHook, req.StreamURL, w.tracker.now + w.tracker.defaultTimeout⟩
            :: w.tracker.entries }) := by
    rw [hproxy, Tracker.Track, hfree]
    simp
  rw [handleRequest_of_candidates env req w cs hne hdisc, htrack]
  simp only
  rw [sendLoop_tracker, sendLoop_fst_none_iff]
  refine ⟨⟨_, List.mem_cons_self _ _, ?_⟩, ?_, ?_⟩
  · simp [Entry.matchesRequest]
  · simp [Tracker.isTracked]
  · simp [hne]

/-- Claim C4, amended, on an example: the endpoint refuses, the entry is there. -/
theorem handleRequest_tracks_request_witness :
    (∃ e ∈ (handleRequest envOneReject reqFoo world0).2.tracker.entries,
        e.matchesRequest reqFoo = true) ∧
    (handleRequest envOneReject reqFoo world0).2.tracker.isTracked reqFoo.ID = true ∧
    ((handleRequest envOneReject reqFoo world0).1 = none ↔
      ∃ c ∈ ["/run/foo/a"], transmit envOneReject (world0.tracker.rewrite reqFoo) c = none) :=
  handleRequest_tracks_request envOneReject reqFoo world0 ["/run/foo/a"] (by decide)
    (fun _ _ => rfl) rfl rfl

/-- Claim C5, the part that fails: with a live entry for the RequestID, so that the
tracking step would fail with TrackingConflict, but no discovered endpoint,
`handleRequest` returns the no-providers error, not the tracking error. -/
theorem handleRequest_conflict_not_reported :
    trackerFoo.isTracked reqFoo.ID = true ∧
    (envNoProviders.proxyUnix trackerFoo reqFoo).1 = .error (errorsNew "TrackingConflict") ∧
    (getProviders envNoProviders reqFoo.Task ⟨trackerFoo, []⟩).1 = .ok [] ∧
    (handleRequest envNoProviders reqFoo ⟨trackerFoo, []⟩).1 =
      some (errorsNew "no providers available for task") ∧
    (handleRequest envNoProviders reqFoo ⟨trackerFoo, []⟩).1 ≠
      some (errorsNew "TrackingConflict") :=
  ⟨rfl, rfl, rfl, rfl, by decide⟩

/-- Claim C5, amended. Whenever discovery has returned a non-empty candidate list
and the tracking step fails, `handleRequest` returns exactly the tracking error
right away: its effects are the discovery read and the tracker call, and no
transmission is attempted, whatever the non-empty candidate list is. -/
theorem handleRequest_tracking_failure {τ : Type} (env : Env τ) (req : Request)
    (w : World τ) (t : τ) (err : GoError) (cs : List String) (hne : cs ≠ [])
    (hdisc : (getProviders env req.Task w).1 = .ok cs)
    (htrack : env.proxyUnix w.tracker req = (.error err, t)) :
    handleRequest env req w =
      (some err,
       ⟨t, w.log ++ [.dispatch req, .readDir (taskDir env req.Task), .proxyUnix req]⟩) := by
  rw [handleRequest_of_candidates env req w cs hne hdisc, htrack]

/-- Claim C5, amended, on an example: the RequestID r1 is live in the tracker of the
spec and three candidates are available; none is contacted. -/
theorem handleRequest_tracking_failure_witness :
    handleRequest envFailover reqFoo ⟨trackerFoo, []⟩ =
      (some (errorsNew "TrackingConflict"),
       ⟨trackerFoo, [.dispatch reqFoo, .readDir "/run/foo", .proxyUnix reqFoo]⟩) :=
  handleRequest_tracking_failure envFailover reqFoo ⟨trackerFoo, []⟩ trackerFoo
    (errorsNew "TrackingConflict") ["/run/foo/a", "/run/foo/b", "/run/foo/c"] (by decide)
    rfl rfl

/-! ## Discovery -/

theorem isSocket_eq_testBit (fi : FileInfo) : isSocket fi = fi.Mode.testBit 24 := by
  have h : ModeSocket = 2 ^ 24 := by decide
  unfold isSocket
  rw [h, Nat.and_two_pow]
  cases fi.Mode.testBit 24 <;> simp

theorem filterSockets_eq {τ : Type} (env : Env τ) (dir : String) (files : List FileInfo)
    (acc : List String) :
    filterSockets env dir files acc =
      acc ++ (files.filter (fun fi => fi.Mode.testBit 24)).map (fun fi => env.join dir fi.Name) := by
  induction files generalizing acc with
  | nil => simp [filterSockets]
  | cons fi files ih =>
    rw [filterSockets, isSocket_eq_testBit]
    cases hb : fi.Mode.testBit 24 <;> simp [ih, hb]

theorem joinPath_injective (dir : String) : Function.Injective (joinPath dir) := by
  intro a b h
  have hd := congrArg String.data h
  simp only [joinPath, String.data_append, List.append_cancel_left_eq] at hd
  exact String.ext hd

theorem getProviders_fst_eq {τ : Type} (env : Env τ) (task : String) (w : World τ)
    (ht : task ≠ "") :
    (getProviders env task w).1 =
      match env.readDir (taskDir env task) with
      | .error err => if err.notExist then .ok [] else .error err
      | .ok files => .ok (filterSockets env (taskDir env task) files []) := by
  unfold getProviders taskDir
  simp only [ht, if_false]
  cases env.readDir (env.join env.socketDir task) with
  | error err =>
    dsimp only
    split <;> rfl
  | ok files => rfl

/-- Claim C6. For a non-empty task whose directory is read successfully,
`getProviders` returns, without error, exactly the entries whose mode has the
socket bit (bit 24 of the 32-bit file mode) set, each as the task directory joined
with the entry name, in listing order, every such entry once and nothing else;
a name is in the result if and only if it is the join of a socket entry, and
when the listing has pairwise distinct names and joining onto the directory is
injective the result has no duplicates. -/
theorem getProviders_lists_sockets {τ : Type} (env : Env τ) (task : String) (w : World τ)
    (files : List FileInfo) (ht : task ≠ "")
    (hread : env.readDir (taskDir env task) = .ok files) :
    (getProviders env task w).1 =
      .ok ((files.filter (fun fi => fi.Mode.testBit 24)).map
            (fun fi => env.join (taskDir env task) fi.Name)) ∧
    (∀ cs, (getProviders env task w).1 = .ok cs →
      (∀ s, s ∈ cs ↔
        ∃ fi ∈ files, fi.Mode.testBit 24 = true ∧ s = env.join (taskDir env task) fi.Name) ∧
      ((files.map FileInfo.Name).Nodup → Function.Injective (env.join (taskDir env task)) →
        cs.Nodup)) := by
  have hmain : (getProviders env task w).1 =
      .ok ((files.filter (fun fi => fi.Mode.testBit 24)).map
            (fun fi => env.join (taskDir env task) fi.Name)) := by
    unfold taskDir at hread ⊢
    simp [getProviders, ht, hread, filterSockets_eq]
  refine ⟨hmain, ?_⟩
  intro cs hcs
  rw [hmain] at hcs
  injection hcs with hcs
  subst hcs
  constructor
  · intro s
    simp only [List.mem_map, List.mem_filter]
    constructor
    · rintro ⟨fi, ⟨hmem, hbit⟩, rfl⟩
      exact ⟨fi, hmem, hbit, rfl⟩
    · rintro ⟨fi, hmem, hbit, rfl⟩
      exact ⟨fi, ⟨hmem, hbit⟩, rfl⟩
  · intro hnd hinj
    have hsub : ((files.filter (fun fi => fi.Mode.testBit 24)).map FileInfo.Name).Nodup :=
      List.Nodup.sublist (List.Sublist.map _ (List.filter_sublist _)) hnd
    have := List.Nodup.map hinj hsub
    simpa [List.map_map, Function.comp_def] using this

/-- Claim C6 at the example of the spec: sockets a and b and the regular file c under
task foo give exactly a and b, in that order and without duplicates. -/
theorem getProviders_lists_sockets_witness :
    (getProviders envListing "foo" world0).1 = .ok ["/run/foo/a", "/run/foo/b"] ∧
    ["/run/foo/a", "/run/foo/b"].Nodup :=
  have h := getProviders_lists_sockets envListing "foo" world0
    [socketFile "a", socketFile "b", regularFile "c"] (by decide) rfl
  ⟨h.1, (h.2 _ h.1).2 (by decide) (joinPath_injective _)⟩

/-- Claim C7. For a non-empty task: a missing task directory gives the empty list and
no error; `getProviders` returns an error if and only if reading the directory
failed with an error that is not a not-exist error, and then returns that very
error; a successful read always gives a list and no error. -/
theorem getProviders_error_iff {τ : Type} (env : Env τ) (task : String) (w : World τ)
    (ht : task ≠ "") :
    (∀ e, env.readDir (taskDir env task) = .error e → e.notExist = true →
      (getProviders env task w).1 = .ok []) ∧
    (∀ e, (getProviders env task w).1 = .error e ↔
      (env.readDir (taskDir env task) = .error e ∧ e.notExist = false)) ∧
    (∀ files, env.readDir (taskDir env task) = .ok files →
      ∃ cs, (getProviders env task w).1 = .ok cs) := by
  rw [getProviders_fst_eq env task w ht]
  cases hr : env.readDir (taskDir env task) with
  | error err =>
    obtain ⟨msg, ne⟩ := err
    cases ne with
    | true =>
      refine ⟨fun _ _ _ => by simp, fun e => ?_, fun files h => by simp at h⟩
      constructor
      · intro h
        simp at h
      · rintro ⟨h1, h2⟩
        simp only [Except.error.injEq] at h1
        subst h1
        simp at h2
    | false =>
      refine ⟨fun e h he => ?_, fun e => ?_, fun files h => by simp at h⟩
      · simp only [Except.error.injEq] at h
        subst h
        simp at he
      · simp only [Bool.false_eq_true, if_false, Except.error.injEq]
        constructor
        · intro h
          subst h
          exact ⟨rfl, rfl⟩
        · intro h
          exact h.1
  | ok files =>
    refine ⟨fun e h => by simp at h, fun e => by simp, fun fs _ => ⟨_, rfl⟩⟩

/-- Claim C7 on examples: a task without directory gives the empty list, and a
permission error is passed on. -/
theorem getProviders_error_iff_witness :
    (getProviders envListing "bar" world0).1 = .ok [] ∧
    (getProviders envDenied "foo" world0).1 = .error ⟨"permission denied", false⟩ :=
  ⟨(getProviders_error_iff envListing "bar" world0 (by decide)).1
      ⟨"no such file or directory", true⟩ rfl rfl,
   ((getProviders_error_iff envDenied "foo" world0 (by decide)).2.1
      ⟨"permission denied", false⟩).mpr ⟨rfl, rfl⟩⟩

/-! ## Gateway -/

theorem handleRequest_empty_task {τ : Type} (env : Env τ) (req : Request) (w : World τ)
    (ht : req.Task = "") :
    handleRequest env req w =
      (some (errorsNew "request missing task"), w.emit (.dispatch req)) := by
  unfold handleRequest
  simp only [ht, getProviders_empty_task]

theorem sendLoop_responses {τ : Type} (env : Env τ) (proxyReq : Request)
    (cs : List String) (err : Option GoError) (w : World τ) :
    responses (sendLoop env proxyReq cs err w).2.log = responses w.log := by
  induction cs generalizing err w with
  | nil => rfl
  | cons p rest ih =>
    rw [sendLoop]
    cases hp : transmit env proxyReq p with
    | none => simp [World.emit, responses, List.filterMap_append]
    | some e =>
      simp only [ih]
      simp [World.emit, responses, List.filterMap_append]

theorem handleRequest_responses {τ : Type} (env : Env τ) (req : Request) (w : World τ) :
    responses (handleRequest env req w).2.log = responses w.log := by
  by_cases ht : req.Task = ""
  · rw [handleRequest_empty_task env req w ht]
    simp [World.emit, responses, List.filterMap_append]
  · cases hd : (getProviders env req.Task w).1 with
    | error err =>
      have h1 := getProviders_fst_indep env req.Task (w.emit (.dispatch req)) w
      have h2 := getProviders_snd env req.Task (w.emit (.dispatch req)) ht
      rw [hd] at h1
      have h3 : getProviders env req.Task (w.emit (.dispatch req)) =
          (.error err, (w.emit (.dispatch req)).emit (.readDir (taskDir env req.Task))) :=
        Prod.ext h1 h2
      unfold handleRequest
      simp only [h3]
      simp [World.emit, responses, List.filterMap_append]
    | ok cs =>
      by_cases hne : cs = []
      · subst hne
        unfold handleRequest
        simp only [getProviders_ok_eq env req.Task w (w.emit (.dispatch req)) [] hd]
        simp [World.emit, responses, List.filterMap_append]
      · rw [handleRequest_of_candidates env req w cs hne hd]
        rcases hp : env.proxyUnix w.tracker req with ⟨r, t⟩
        cases r with
        | error e => simp [responses, List.filterMap_append]
        | ok proxyReq =>
          simp only
          rw [sendLoop_responses]
          simp [responses, List.filterMap_append]

theorem externalRespond_responses {τ : Type} (req : Request) (respErr : Option GoError)
    (w : World τ) :
    responses (externalRespond req respErr w).log =
      responses w.log ++ [some ⟨req.ID, none, none, respErr⟩] := by
  simp [externalRespond, NewResponse, World.emit, responses, List.filterMap_append]

theorem internalRespond_responses {τ : Type} (req : Request) (respErr : Option GoError)
    (w : World τ) :
    responses (internalRespond req respErr w).log =
      responses w.log ++ [some ⟨req.ID, none, none, respErr⟩] := by
  simp [internalRespond, NewResponse, World.emit, responses, List.filterMap_append]

/-- Claim C8. A request whose Task is empty fails structural validation on both
gateway paths. On the external path `handleRequest` is entered and stops in
`getProviders` with the missing-task error before anything is read; on the
internal path `req.Validate()` decides first and, should it let the request
through, `handleRequest` stops in the same way. In both cases the one immediate
response carries the validation error, and the only other effect, if any, is
the entry into `handleRequest`: no directory read, no tracker call (the
tracker state is unchanged) and no transmission. -/
theorem empty_task_fails_validation {τ : Type} (env : Env τ) (w : World τ)
    (req reqI : Request) (body conn : String)
    (ht : req.Task = "") (hti : reqI.Task = "")
    (hext : env.jsonUnmarshal body Request.zero = (req, none))
    (hint : env.unmarshalConnData conn Request.zero = (reqI, none)) :
    handleRequest env req w =
      (some (errorsNew "request missing task"), ⟨w.tracker, w.log ++ [.dispatch req]⟩) ∧
    externalHandler env ⟨.ok body⟩ w =
      ⟨w.tracker,
       w.log ++ [.dispatch req,
                 .respond (some ⟨req.ID, none, none, some (errorsNew "request missing task")⟩)]⟩ ∧
    acceptInternalRequest env conn w =
      (match env.validate reqI with
       | some verr =>
         ⟨w.tracker, w.log ++ [.respond (some ⟨reqI.ID, none, none, some verr⟩)]⟩
       | none =>
         ⟨w.tracker,
          w.log ++ [.dispatch reqI,
                    .respond (some ⟨reqI.ID, none, none,
                      some (errorsNew "request missing task")⟩)]⟩) := by
  refine ⟨?_, ?_, ?_⟩
  · rw [handleRequest_empty_task env req w ht]
    rfl
  · unfold externalHandler
    simp only [hext, handleRequest_empty_task env req w ht]
    simp [externalRespond, NewResponse, World.emit]
  · unfold acceptInternalRequest
    simp only [hint]
    cases hv : env.validate reqI with
    | some verr => simp [internalRespond, NewResponse, World.emit]
    | none =>
      simp only [handleRequest_empty_task env reqI w hti]
      simp [internalRespond, NewResponse, World.emit]

/-- Claim C8 on an example: a payload naming no task, on both paths. -/
theorem empty_task_fails_validation_witness :
    externalHandler envFailover ⟨.ok "{}"⟩ world0 =
      ⟨emptyTracker,
       [.dispatch reqNoTask,
        .respond (some ⟨"r1", none, none, some (errorsNew "request missing task")⟩)]⟩ ∧
    acceptInternalRequest envFailover "{}" world0 =
      ⟨emptyTracker, [.respond (some ⟨"r1", none, none, some (errorsNew "missing task")⟩)]⟩ :=
  (empty_task_fails_validation envFailover world0 reqNoTask reqNoTask "{}" "{}"
    rfl rfl rfl rfl).2

/-- Claim C9. A payload that fails to deserialize short-circuits both handlers:
the world after the call is the world before plus exactly one event, the
immediate response carrying the deserialization error (for the external
handler also when the body cannot be read); `handleRequest` is not entered,
nothing is read, tracked or transmitted. -/
theorem malformed_payload_short_circuits {τ : Type} (env : Env τ) (w : World τ)
    (body conn : String) (req reqI : Request) (err errI bodyErr : GoError)
    (hext : env.jsonUnmarshal body Request.zero = (req, some err))
    (hint : env.unmarshalConnData conn Request.zero = (reqI, some errI)) :
    externalHandler env ⟨.ok body⟩ w =
      ⟨w.tracker, w.log ++ [.respond (some ⟨req.ID, none, none, some err⟩)]⟩ ∧
    externalHandler env ⟨.error bodyErr⟩ w =
      ⟨w.tracker, w.log ++ [.respond (some ⟨"", none, none, some bodyErr⟩)]⟩ ∧
    acceptInternalRequest env conn w =
      ⟨w.tracker, w.log ++ [.respond (some ⟨reqI.ID, none, none, some errI⟩)]⟩ := by
  refine ⟨?_, ?_, ?_⟩
  · unfold externalHandler
    simp only [hext]
    simp [externalRespond, NewResponse, World.emit]
  · simp [externalHandler, externalRespond, NewResponse, World.emit, Request.zero]
  · unfold acceptInternalRequest
    simp only [hint]
    simp [internalRespond, NewResponse, World.emit]

/-- Claim C9 on an example: the empty payload is not a Request. -/
theorem malformed_payload_short_circuits_witness :
    externalHandler envFailover ⟨.ok ""⟩ world0 =
      ⟨emptyTracker,
       [.respond (some ⟨"", none, none, some (errorsNew "unexpected end of JSON input")⟩)]⟩ ∧
    acceptInternalRequest envFailover "" world0 =
      ⟨emptyTracker,
       [.respond (some ⟨"", none, none, some (errorsNew "unexpected end of JSON input")⟩)]⟩ :=
  have h := malformed_payload_short_circuits envFailover world0 "" "" Request.zero Request.zero
    (errorsNew "unexpected end of JSON input") (errorsNew "unexpected end of JSON input")
    (errorsNew "unexpected EOF") rfl rfl
  ⟨h.1, h.2.2⟩

/-- Claim C10. Each handler writes exactly one immediate response for every inbound
request; it echoes the id of the decoded request, its result and stream URL are
nil, and its error is the gateway-level outcome: the error of the first stage
that failed among deserialization, validation (internal path only) and
dispatch, and no error when none failed. -/
theorem immediate_response_is_provisional {τ : Type} (env : Env τ) (w : World τ)
    (r : HttpRequest) (conn : String) :
    responses (externalHandler env r w).log =
      responses w.log ++
        [some ⟨(decodeExternal env r).1.ID, none, none,
          gatewayError (decodeExternal env r).2 none
            (handleRequest env (decodeExternal env r).1 w).1⟩] ∧
    responses (acceptInternalRequest env conn w).log =
      responses w.log ++
        [some ⟨(env.unmarshalConnData conn Request.zero).1.ID, none, none,
          gatewayError (env.unmarshalConnData conn Request.zero).2
            (env.validate (env.unmarshalConnData conn Request.zero).1)
            (handleRequest env (env.unmarshalConnData conn Request.zero).1 w).1⟩] ∧
    (∀ p v d : Option GoError, gatewayError p v d = none ↔ p = none ∧ v = none ∧ d = none) ∧
    (∀ (p v d : Option GoError) (e : GoError), gatewayError p v d = some e →
      p = some e ∨ v = some e ∨ d = some e) := by
  refine ⟨?_, ?_, ?_, ?_⟩
  · unfold externalHandler decodeExternal
    cases hb : r.Body with
    | error err => simp only [externalRespond_responses, gatewayError]
    | ok body =>
      simp only
      rcases hu : env.jsonUnmarshal body Request.zero with ⟨req, perr⟩
      cases perr with
      | some err => simp only [externalRespond_responses, gatewayError]
      | none =>
        simp only [externalRespond_responses, gatewayError, handleRequest_responses]
  · unfold acceptInternalRequest
    rcases hu : env.unmarshalConnData conn Request.zero with ⟨req, perr⟩
    cases perr with
    | some err => simp only [hu, internalRespond_responses, gatewayError]
    | none =>
      cases hv : env.validate req with
      | some verr => simp only [hu, hv, internalRespond_responses, gatewayError]
      | none =>
        have hr := handleRequest_responses env req w
        rcases hh : handleRequest env req w with ⟨derr, w2⟩
        rw [hh] at hr
        cases derr with
        | some e => simp only [hu, hv, hh, internalRespond_responses, gatewayError, hr]
        | none => simp only [hu, hv, hh, internalRespond_responses, gatewayError, hr]
  · intro p v d
    cases p <;> cases v <;> cases d <;> simp [gatewayError]
  · intro p v d e h
    cases p <;> cases v <;> cases d <;> simp_all [gatewayError]

/-! ## RequestID at the tracking step -/

theorem sendLoop_trackedRequests {τ : Type} (env : Env τ) (proxyReq : Request)
    (cs : List String) (err : Option GoError) (w : World τ) :
    trackedRequests (sendLoop env proxyReq cs err w).2.log = trackedRequests w.log := by
  induction cs generalizing err w with
  | nil => rfl
  | cons p rest ih =>
    rw [sendLoop]
    cases hp : transmit env proxyReq p with
    | none => simp [World.emit, trackedRequests, List.filterMap_append]
    | some e =>
      simp only [ih]
      simp [World.emit, trackedRequests, List.filterMap_append]

theorem handleRequest_trackedRequests {τ : Type} (env : Env τ) (req : Request) (w : World τ) :
    trackedRequests (handleRequest env req w).2.log =
      trackedRequests w.log ++ (if reachesTracking env req w then [req] else []) := by
  by_cases ht : req.Task = ""
  · rw [handleRequest_empty_task env req w ht]
    simp [World.emit, trackedRequests, List.filterMap_append, reachesTracking, ht,
      getProviders_empty_task]
  · unfold reachesTracking
    cases hd : (getProviders env req.Task w).1 with
    | error err =>
      have h1 := getProviders_fst_indep env req.Task (w.emit (.dispatch req)) w
      have h2 := getProviders_snd env req.Task (w.emit (.dispatch req)) ht
      rw [hd] at h1
      have h3 : getProviders env req.Task (w.emit (.dispatch req)) =
          (.error err, (w.emit (.dispatch req)).emit (.readDir (taskDir env req.Task))) :=
        Prod.ext h1 h2
      unfold handleRequest
      simp only [h3]
      simp [World.emit, trackedRequests, List.filterMap_append]
    | ok cs =>
      by_cases hne : cs = []
      · subst hne
        unfold handleRequest
        simp only [getProviders_ok_eq env req.Task w (w.emit (.dispatch req)) [] hd]
        simp [World.emit, trackedRequests, List.filterMap_append]
      · rw [handleRequest_of_candidates env req w cs hne hd]
        rcases hp : env.proxyUnix w.tracker req with ⟨r, t⟩
        cases r with
        | error e => simp [trackedRequests, List.filterMap_append, hne]
        | ok proxyReq =>
          simp only
          rw [sendLoop_trackedRequests]
          simp [trackedRequests, List.filterMap_append, hne]

theorem externalRespond_trackedRequests {τ : Type} (req : Request) (respErr : Option GoError)
    (w : World τ) :
    trackedRequests (externalRespond req respErr w).log = trackedRequests w.log := by
  simp [externalRespond, NewResponse, World.emit, trackedRequests, List.filterMap_append]

theorem internalRespond_trackedRequests {τ : Type} (req : Request) (respErr : Option GoError)
    (w : World τ) :
    trackedRequests (internalRespond req respErr w).log = trackedRequests w.log := by
  simp [internalRespond, NewResponse, World.emit, trackedRequests, List.filterMap_append]

/-- Claim C11, the part that fails: an external payload that names task foo and no
RequestID is decoded with an empty RequestID, and that very request, its
RequestID still empty, is what the tracking step receives; the tracker of the
spec records an entry keyed by the empty RequestID. -/
theorem empty_request_id_reaches_tracker :
    (decodeExternal envNoID ⟨.ok "foo"⟩).1 = reqNoID ∧
    reqNoID.ID = "" ∧
    trackedRequests (externalHandler envNoID ⟨.ok "foo"⟩ world0).log = [reqNoID] ∧
    (externalHandler envNoID ⟨.ok "foo"⟩ world0).tracker.entries = [⟨"", none, none, 30⟩] :=
  ⟨rfl, rfl, rfl, rfl⟩

/-- Claim C11, amended. The gateway hands the request to the tracking step exactly as
it was deserialized, RequestID included, and assigns none itself: on either
path at most one request reaches the tracking step, namely the deserialized
request, and it does so exactly when deserialization succeeded, validation
(internal path) let it through and discovery found at least one candidate. Its
RequestID is therefore non-empty if and only if the deserialized one is. -/
theorem gateway_hands_over_decoded_request {τ : Type} (env : Env τ) (w : World τ)
    (r : HttpRequest) (conn : String) :
    trackedRequests (externalHandler env r w).log =
      trackedRequests w.log ++
        (if (decodeExternal env r).2.isNone &&
            reachesTracking env (decodeExternal env r).1 w
         then [(decodeExternal env r).1] else []) ∧
    trackedRequests (acceptInternalRequest env conn w).log =
      trackedRequests w.log ++
        (if (env.unmarshalConnData conn Request.zero).2.isNone &&
            (env.validate (env.unmarshalConnData conn Request.zero).1).isNone &&
            reachesTracking env (env.unmarshalConnData conn Request.zero).1 w
         then [(env.unmarshalConnData conn Request.zero).1] else []) := by
  constructor
  · unfold externalHandler decodeExternal
    cases hb : r.Body with
    | error err => simp [externalRespond_trackedRequests]
    | ok body =>
      simp only
      rcases hu : env.jsonUnmarshal body Request.zero with ⟨req, perr⟩
      cases perr with
      | some err => simp [externalRespond_trackedRequests]
      | none =>
        simp only [externalRespond_trackedRequests, handleRequest_trackedRequests]
        simp
  · unfold acceptInternalRequest
    rcases hu : env.unmarshalConnData conn Request.zero with ⟨req, perr⟩
    cases perr with
    | some err => simp [hu, internalRespond_trackedRequests]
    | none =>
      cases hv : env.validate req with
      | some verr => simp [hu, hv, internalRespond_trackedRequests]
      | none =>
        have hr := handleRequest_trackedRequests env req w
        rcases hh : handleRequest env req w with ⟨derr, w2⟩
        rw [hh] at hr
        cases derr with
        | some e =>
          simp only [hu, hv, hh, internalRespond_trackedRequests]
          simpa using hr
        | none =>
          simp only [hu, hv, hh, internalRespond_trackedRequests]
          simpa using hr

/-! ## Lifecycle -/

/-- Claim C12, where the code departs from it: when the tracker has started and the
internal listener then fails to start, `Start` returns that error at once with
the tracker still up; the calls made are the two start calls and no stop call,
so the failed `Start` leaves a piece running. This is so at the example and for
every error and every state before the call. -/
theorem start_failure_leaves_tracker_up :
    Start none (some (errorsNew "listen unix: address already in use")) lifecycle0 =
      (some (errorsNew "listen unix: address already in use"),
       ⟨⟨true, false, false, false⟩, [.proxyStart, .internalStart]⟩) ∧
    (Start none (some (errorsNew "listen unix: address already in use")) lifecycle0).2.up.allDown
      = false ∧
    (∀ (err : GoError) (s : Lifecycle),
      Start none (some err) s =
        (some err, ⟨{ s.up with proxy := true }, s.calls ++ [.proxyStart, .internalStart]⟩) ∧
      (Start none (some err) s).2.up.allDown = false) :=
  ⟨rfl, rfl, fun _ s =>
    ⟨by simp [Start, Lifecycle.call], by simp [Start, Lifecycle.call, Pieces.allDown]⟩⟩

/-! ## Tracker: at most one delivery per tracked request -/

theorem Resolve_potential (t : Tracker) (resp : Response) (id : String) :
    (deliveriesFor id (t.Resolve resp).2).length + (t.Resolve resp).1.liveCount id
      ≤ t.liveCount id := by
  unfold Tracker.Resolve
  cases h : t.entries.find? (fun e => e.RequestID == resp.ID) with
  | none => simp [deliveriesFor]
  | some e =>
    have hmem : e ∈ t.entries := List.mem_of_find?_eq_some h
    have hp : (e.RequestID == resp.ID) = true :=
      List.find?_some (p := fun (x : Entry) => x.RequestID == resp.ID) h
    simp only
    by_cases hid : resp.ID = id
    · have hlive : 0 < t.liveCount id := by
        unfold Tracker.liveCount
        rw [List.countP_pos_iff]
        exact ⟨e, hmem, by simpa [hid] using hp⟩
      have hzero : List.countP (fun e => e.RequestID == id)
          (t.entries.filter (fun x => !(x.RequestID == resp.ID))) = 0 := by
        rw [List.countP_eq_zero]
        intro x hx
        simp only [List.mem_filter] at hx
        simpa [hid] using hx.2
      have hlen : (deliveriesFor id [(⟨e.OriginalResponseHook,
          if resp.StreamURL.isSome = true then { resp with StreamURL := e.OriginalStreamURL }
          else resp⟩ : Delivery)]).length ≤ 1 := by
        unfold deliveriesFor
        exact le_trans (List.length_filter_le _ _) (by simp)
      simp only [Tracker.liveCount, hzero] at hlive ⊢
      omega
    · have hnone : deliveriesFor id [(⟨e.OriginalResponseHook,
          if resp.StreamURL.isSome = true then { resp with StreamURL := e.OriginalStreamURL }
          else resp⟩ : Delivery)] = [] := by
        unfold deliveriesFor
        by_cases hs : resp.StreamURL.isSome = true <;> simp [hs, hid]
      have hle : List.countP (fun e => e.RequestID == id)
          (t.entries.filter (fun x => !(x.RequestID == resp.ID)))
            ≤ List.countP (fun e => e.RequestID == id) t.entries :=
        List.Sublist.countP_le _ (List.filter_sublist _)
      simp only [Tracker.liveCount, hnone, List.length_nil, Nat.zero_add]
      exact hle

theorem expire_potential (t : Tracker) (es : List Entry) (id : String) :
    (deliveriesFor id (t.expire es).2).length + (t.expire es).1.liveCount id
      ≤ t.liveCount id := by
  induction es generalizing t with
  | nil => simp [Tracker.expire, deliveriesFor]
  | cons e rest ih =>
    have h1 := Resolve_potential t (timeoutResponse e) id
    have h2 := ih (t.Resolve (timeoutResponse e)).1
    simp only [Tracker.expire, deliveriesFor, List.filter_append, List.length_append] at h1 h2 ⊢
    omega

theorem Track_other_liveCount (t : Tracker) (req : Request) (timeout : Nat) (id : String)
    (hne : req.ID ≠ id) :
    (t.Track req timeout).2.liveCount id = t.liveCount id := by
  unfold Tracker.Track
  by_cases h : t.isTracked req.ID = true
  · simp [h]
  · simp [h, Tracker.liveCount, List.countP_cons, hne]

theorem step_potential (t : Tracker) (op : TrackerOp) (id : String)
    (hop : ∀ r timeout, op = .track r timeout → r.ID ≠ id) :
    (deliveriesFor id (t.step op).2).length + (t.step op).1.liveCount id
      ≤ t.liveCount id := by
  cases op with
  | track r timeout =>
    simp [Tracker.step, deliveriesFor, Track_other_liveCount t r timeout id (hop r timeout rfl)]
  | resolve resp => exact Resolve_potential t resp id
  | sweep => exact expire_potential t _ id
  | advance dt => simp [Tracker.step, deliveriesFor, Tracker.liveCount]
  | stop => simp [Tracker.step, deliveriesFor, Tracker.liveCount, Tracker.Stop]

theorem run_potential (t : Tracker) (ops : List TrackerOp) (id : String)
    (hops : ∀ op ∈ ops, ∀ r timeout, op = .track r timeout → r.ID ≠ id) :
    (deliveriesFor id (t.run ops).2).length + (t.run ops).1.liveCount id
      ≤ t.liveCount id := by
  induction ops generalizing t with
  | nil => simp [Tracker.run, deliveriesFor]
  | cons op rest ih =>
    have h1 := step_potential t op id (hops op (List.mem_cons_self _ _))
    have h2 := ih (t.step op).1 (fun o ho => hops o (List.mem_cons_of_mem _ ho))
    simp only [Tracker.run, deliveriesFor, List.filter_append, List.length_append] at h1 h2 ⊢
    omega

theorem Track_ok_liveCount (t t1 : Tracker) (req proxied : Request) (timeout : Nat)
    (htrack : t.Track req timeout = (.ok proxied, t1)) :
    t1.liveCount req.ID = 1 := by
  unfold Tracker.Track at htrack
  by_cases h : t.isTracked req.ID = true
  · simp [h] at htrack
  · simp only [h] at htrack
    have ht1 : t1 = { t with entries :=
        ⟨req.ID, req.ResponseHook, req.StreamURL, t.now + timeout⟩ :: t.entries } := by
      simpa using (congrArg Prod.snd htrack).symm
    have hzero : List.countP (fun e => e.RequestID == req.ID) t.entries = 0 := by
      rw [List.countP_eq_zero]
      intro x hx hxid
      apply h
      unfold Tracker.isTracked
      rw [List.any_eq_true]
      exact ⟨x, hx, hxid⟩
    subst ht1
    simp [Tracker.liveCount, List.countP_cons, hzero]

/-- Claim C14. Over the tracker of the spec: once a request has been tracked, then
over every sequence of atomic tracker operations made of provider responses
(also duplicate, late or for unknown ids), timeout sweeps, passing of time,
tracking of requests with other RequestIDs and a final stop, at most one
Response answering that RequestID is forwarded to the caller: the real one or
the synthesized timeout, never both and never more than once. -/
theorem tracked_request_answered_at_most_once (t t1 : Tracker) (req proxied : Request)
    (timeout : Nat) (ops : List TrackerOp)
    (htrack : t.Track req timeout = (.ok proxied, t1))
    (hops : ∀ op ∈ ops, ∀ r timeout2, op = .track r timeout2 → r.ID ≠ req.ID) :
    (deliveriesFor req.ID (t1.run ops).2).length ≤ 1 := by
  have h1 := run_potential t1 ops req.ID hops
  have h2 := Track_ok_liveCount t t1 req proxied timeout htrack
  omega

/-- Claim C14 on an example: the deadline passes, the real response arrives before the
sweep runs, then the sweep and a duplicate response follow; one delivery. -/
theorem tracked_request_answered_at_most_once_witness :
    (deliveriesFor reqFoo.ID
      (trackerFoo.run [.advance 31, .resolve ⟨"r1", some "pong", none, none⟩, .sweep,
        .resolve ⟨"r1", some "pong", none, none⟩]).2).length ≤ 1 :=
  tracked_request_answered_at_most_once emptyTracker trackerFoo reqFoo reqFooProxied 30
    [.advance 31, .resolve ⟨"r1", some "pong", none, none⟩, .sweep,
      .resolve ⟨"r1", some "pong", none, none⟩]
    rfl (by simp)

end Coordinator

namespace Clusterconf

open Coordinator (GoError errorsNew Request)

/-! ## Go map laws -/

theorem mapGet_mapSet_self {K V : Type} [BEq K] [LawfulBEq K] (m : List (K × V)) (k : K)
    (v : V) : mapGet (mapSet m k v) k = some v := by
  induction m with
  | nil => simp [mapSet, mapGet, List.lookup]
  | cons kv rest ih =>
    obtain ⟨k2, v2⟩ := kv
    by_cases h : k = k2
    · subst h
      simp [mapSet, mapGet, List.lookup]
    · have hb : (k == k2) = false := by simpa using h
      simp only [mapSet, hb, mapGet, List.lookup] at ih ⊢
      simpa using ih

theorem mapGet_mapSet_ne {K V : Type} [BEq K] [LawfulBEq K] (m : List (K × V)) (k k1 : K)
    (v : V) (hne : k1 ≠ k) : mapGet (mapSet m k v) k1 = mapGet m k1 := by
  induction m with
  | nil =>
    have hb : (k1 == k) = false := by simpa using hne
    simp [mapSet, mapGet, List.lookup, hb]
  | cons kv rest ih =>
    obtain ⟨k2, v2⟩ := kv
    by_cases h : k = k2
    · subst h
      have hb : (k1 == k) = false := by simpa using hne
      simp [mapSet, mapGet, List.lookup, hb]
    · have hb : (k == k2) = false := by simpa using h
      simp only [mapSet, hb, mapGet, List.lookup] at ih ⊢
      cases hk : k1 == k2 with
      | true => simp
      | false => simpa using ih

theorem mapGet_mapDelete_self {K V : Type} [BEq K] [LawfulBEq K] (m : List (K × V)) (k : K) :
    mapGet (mapDelete m k) k = none := by
  induction m with
  | nil => rfl
  | cons kv rest ih =>
    obtain ⟨k2, v2⟩ := kv
    by_cases h : k = k2
    · subst h
      simp only [mapDelete, mapGet] at ih
      simp [mapDelete, mapGet, ih]
    · have hb : (k == k2) = false := by simpa using h
      simp only [mapDelete, mapGet, List.filter, hb, Bool.not_false, List.lookup] at ih ⊢
      exact ih

/-! ## Bundles: update, get, delete -/

/-- Claim C15, the part that fails: bundle 7 submitted with the largest `uint64`
ModIndex is stored and returned with ModIndex 0, not with a ModIndex one
greater than the submitted value. -/
theorem updateBundle_modIndex_wraps :
    bundle7Max.ID ≠ 0 ∧
    (UpdateBundle (mockEnv (some bundle7Max) 7 none) dataN1N2 reqBundle).1 =
      .ok ⟨some ⟨7, 0, "db"⟩⟩ ∧
    GetBundle (mockEnv (some bundle7Max) 7 none)
      (UpdateBundle (mockEnv (some bundle7Max) 7 none) dataN1N2 reqBundle).2 reqBundle =
      .ok ⟨some ⟨7, 0, "db"⟩⟩ ∧
    (0 : Nat) ≠ bundle7Max.ModIndex + 1 :=
  ⟨by decide, rfl, rfl, by decide⟩

/-- Claim C15, amended. For every state of the mock tables and every bundle b with a
non-zero ID: `UpdateBundle` with b succeeds; afterwards `GetBundle` for b.ID
succeeds and returns b with its ModIndex incremented as a `uint64`, that is,
exactly one greater than the submitted value unless that value is the largest
`uint64`, where it wraps to 0; the entry under every other bundle ID and the
nodes history are unchanged; and after `DeleteBundle` of b.ID, which reports no
error, `GetBundle` for b.ID fails with "bundle config not found". -/
theorem updateBundle_get_delete (env : MockEnv) (c : MockClusterData) (b : Bundle)
    (reqU reqG reqD : Request)
    (hid : b.ID ≠ 0)
    (hU : env.unmarshalBundlePayload reqU = .ok ⟨some b⟩)
    (hG : env.unmarshalBundleIDArgs reqG = .ok ⟨b.ID⟩)
    (hD : env.unmarshalBundleIDArgs reqD = .ok ⟨b.ID⟩) :
    (UpdateBundle env c reqU).1 =
      .ok ⟨some { b with ModIndex := (b.ModIndex + 1) % uint64Size }⟩ ∧
    GetBundle env (UpdateBundle env c reqU).2 reqG =
      .ok ⟨some { b with ModIndex := (b.ModIndex + 1) % uint64Size }⟩ ∧
    (b.ModIndex + 1 < uint64Size → (b.ModIndex + 1) % uint64Size = b.ModIndex + 1) ∧
    (∀ k, k ≠ b.ID →
      mapGet (UpdateBundle env c reqU).2.Bundles k = mapGet c.Bundles k) ∧
    (UpdateBundle env c reqU).2.History = c.History ∧
    (DeleteBundle env (UpdateBundle env c reqU).2 reqD).1 = none ∧
    GetBundle env (DeleteBundle env (UpdateBundle env c reqU).2 reqD).2 reqG =
      .error (errorsNew "bundle config not found") := by
  have hupd : UpdateBundle env c reqU =
      (.ok ⟨some { b with ModIndex := (b.ModIndex + 1) % uint64Size }⟩,
       { c with Bundles :=
          mapSet c.Bundles b.ID { b with ModIndex := (b.ModIndex + 1) % uint64Size } }) := by
    simp [UpdateBundle, hU, hid]
  refine ⟨?_, ?_, ?_, ?_, ?_, ?_, ?_⟩
  · rw [hupd]
  · rw [hupd]
    simp [GetBundle, hG, hid, mapGet_mapSet_self]
  · intro h
    exact Nat.mod_eq_of_lt h
  · intro k hk
    rw [hupd]
    exact mapGet_mapSet_ne _ _ _ _ hk
  · rw [hupd]
  · simp [DeleteBundle, hD, hid]
  · rw [hupd]
    simp [DeleteBundle, GetBundle, hD, hG, hid, mapGet_mapDelete_self]

/-- Claim C15, amended, on an example: bundle 7 with ModIndex 4 comes back with
ModIndex 5, bundle 9 stays, and after deletion bundle 7 is not found. -/
theorem updateBundle_get_delete_witness :
    GetBundle (mockEnv (some bundle7) 7 none)
      (UpdateBundle (mockEnv (some bundle7) 7 none) dataN1N2 reqBundle).2 reqBundle =
      .ok ⟨some ⟨7, 5, "db"⟩⟩ ∧
    mapGet (UpdateBundle (mockEnv (some bundle7) 7 none) dataN1N2 reqBundle).2.Bundles 9 =
      some ⟨9, 3, "web"⟩ ∧
    GetBundle (mockEnv (some bundle7) 7 none)
      (DeleteBundle (mockEnv (some bundle7) 7 none)
        (UpdateBundle (mockEnv (some bundle7) 7 none) dataN1N2 reqBundle).2 reqBundle).2
      reqBundle = .error (errorsNew "bundle config not found") :=
  have h := updateBundle_get_delete (mockEnv (some bundle7) 7 none) dataN1N2 bundle7
    reqBundle reqBundle reqBundle (by decide) rfl rfl rfl
  ⟨h.2.1, h.2.2.2.1 9 (by decide), h.2.2.2.2.2.2⟩

/-! ## Nodes history: the filters -/

theorem filterLoop_eq (filters : List (Node → Bool)) (node : Node) (history : NodesHistory) :
    filterLoop filters node history = history := by
  induction filters with
  | nil => rfl
  | cons fn rest ih =>
    unfold filterLoop
    split <;> exact ih

theorem nodeLoop_filters_irrelevant (filters : List (Node → Bool)) (saved : NodeHistory)
    (history : NodesHistory) :
    nodeLoop filters saved history = nodeLoop [] saved history := by
  induction saved generalizing history with
  | nil => rfl
  | cons kv rest ih =>
    obtain ⟨hb, node⟩ := kv
    simp only [nodeLoop, filterLoop_eq, ih]

theorem historyLoop_filters_irrelevant (filters : List (Node → Bool)) (saved : NodesHistory)
    (history : NodesHistory) :
    historyLoop filters saved history = historyLoop [] saved history := by
  induction saved generalizing history with
  | nil => rfl
  | cons kv rest ih =>
    obtain ⟨id, nodeHistory⟩ := kv
    simp only [historyLoop, nodeLoop_filters_irrelevant filters, ih]

/-- Claim C13, where the code departs from it: with heartbeats of n1 and n2 stored and
a request restricted to node n2, the id filter for n2 rejects n1, yet
`GetNodesHistory` returns the whole stored history, n1 included, when
`UnmarshalArgs` reports no error, and an error and no history when it reports
one; even a filter that rejects every node leaves the loops returning the
whole stored history. -/
theorem getNodesHistory_keeps_rejected_node :
    (mockEnv none 0 none).nodeFilterID ["n2"] nodeN1 = false ∧
    GetNodesHistory (mockEnv none 0 none) dataN1N2 reqOnlyN2 =
      .ok [("n1", [(5, nodeN1)]), ("n2", [(7, nodeN2)])] ∧
    holdsNode [("n1", [(5, nodeN1)]), ("n2", [(7, nodeN2)])] nodeN1 = true ∧
    (∀ e : GoError, GetNodesHistory (mockEnv none 0 (some e)) dataN1N2 reqOnlyN2 = .error e) ∧
    historyLoop [fun _ => false] dataN1N2.History [] =
      [("n1", [(5, nodeN1)]), ("n2", [(7, nodeN2)])] :=
  ⟨rfl, rfl, by decide, fun _ => rfl, rfl⟩

end Clusterconf
